/-
  Verification of the Dublin transit stress pipeline.

  Shallow embedding over ℚ of the numeric core of the repository:
    norm_codes/add_delay_norm.py    (delay_norm_vec)
    norm_codes/add_speed_norm.py    (speed_norm computation in main)
    norm_codes/add_weather_norm.py  (rain_norm, heat_norm, cold_norm)
    norm_codes/add_stress_score.py  (weights W and row_stress in main)
    norm_codes/build_freeflow.py    (free-flow 95th percentile table)
    norm_codes/geo/segment_utils.py (snap_minutes)
    join_minute_with_weather.py     (zone-partitioned nearest-time join)
    app/app.py                      (ed_stress_agg)

  Missing values (pandas NaN / nulls) are modelled as Option ℚ; float
  arithmetic is modelled as exact rational arithmetic.  A pandas
  comparison such as `NaN >= 5` evaluates to False; the embeddings
  reproduce that by pattern matching on the Option.
-/
import Mathlib

namespace TransitStress

/-- numpy-style clip: np.clip(x, 0, 1) / Series.clip(0, 1). -/
def clip01 (x : ℚ) : ℚ := min (max x 0) 1

/-! ## add_delay_norm.py -/

/-- Embeds `delay_norm_vec` of norm_codes/add_delay_norm.py.
`delay_sec.fillna(0)` is the `Option.getD 0`; seconds are converted to
minutes; the three masks `d <= 5`, `5 < d <= 15`, `d > 15` become the
if-chain; the final `.clip(0, 1)` is `clip01`. -/
def delay_norm_vec (delay_sec : Option ℚ) : ℚ :=
  let d := delay_sec.getD 0 / 60
  let raw :=
    if d ≤ 5 then 3/10 * (d / 5)
    else if d ≤ 15 then 3/10 + 4/10 * ((d - 5) / 10)
    else 7/10 + 3/10 * (min (d - 15) 45 / 45)
  clip01 raw

/-! ## add_weather_norm.py -/

/-- Embeds `rain_norm` of norm_codes/add_weather_norm.py:
`np.clip(r_mm.fillna(0) / 3.0, 0, 1)`. -/
def rain_norm (r_mm : Option ℚ) : ℚ := clip01 (r_mm.getD 0 / 3)

/-- Embeds `heat_norm` of norm_codes/add_weather_norm.py: missing
temperature defaults to 18 °C; the four masks over `(18,21]`, `(21,24]`,
`(24,27]`, `(27,∞)` become the if-chain; unmasked entries keep the 0 of
`np.zeros_like`. -/
def heat_norm (temp_c : Option ℚ) : ℚ :=
  let t := temp_c.getD 18
  if 18 < t ∧ t ≤ 21 then 3/10 * (t - 18) / 3
  else if 21 < t ∧ t ≤ 24 then 3/10 + 4/10 * (t - 21) / 3
  else if 24 < t ∧ t ≤ 27 then 7/10 + 3/10 * (t - 24) / 3
  else if 27 < t then 1
  else 0

/-- Embeds `cold_norm` of norm_codes/add_weather_norm.py: missing
temperature defaults to 15 °C; masks `5 ≤ t < 10`, `0 ≤ t < 5`, `t < 0`
become the if-chain; the last bucket caps at −5 °C via `min (−t) 5`. -/
def cold_norm (temp_c : Option ℚ) : ℚ :=
  let t := temp_c.getD 15
  if 5 ≤ t ∧ t < 10 then 3/10 * (10 - t) / 5
  else if 0 ≤ t ∧ t < 5 then 3/10 + 4/10 * (5 - t) / 5
  else if t < 0 then 7/10 + 3/10 * (min (-t) 5) / 5
  else 0

/-! ## add_speed_norm.py -/

/-- Embeds the `speed_norm` computation in `main` of
norm_codes/add_speed_norm.py.  `moving = speed_kph >= 5` is False for a
missing speed (pandas NaN comparison), so such rows keep the dwell
default 0.  For moving rows, `free_kph` is the left-merge lookup result:
absent entry (NaN) propagates to a NaN (`none`) speed_norm; present
entry gives `(1 - speed / free.clip(lower=1e-3)).clip(0, 1)`. -/
def speed_norm (speed_kph : Option ℚ) (free_kph : Option ℚ) : Option ℚ :=
  match speed_kph with
  | none => some 0
  | some s =>
    if s < 5 then some 0
    else
      match free_kph with
      | none => none
      | some f => some (clip01 (1 - s / max f (1/1000)))

/-! ## add_stress_score.py -/

/-- The weight dictionary of norm_codes/add_stress_score.py. -/
structure Weights where
  delay : ℚ
  speed : ℚ
  rain : ℚ
  heat : ℚ
  cold : ℚ
  vanish : ℚ

/-- The dictionary `W` of norm_codes/add_stress_score.py (the configured
preset). -/
def W : Weights :=
  { delay := 30/100, speed := 30/100, rain := 0/100
    heat := 15/100, cold := 0/100, vanish := 25/100 }

/-- The weighted-sum expression of `main` in add_stress_score.py, for an
arbitrary weight dictionary `w`.  The norm columns are Option ℚ because
pandas NaN propagates through every `+` and `*` of the expression
(including terms with weight 0), so the sum is NaN — `none` — as soon as
any norm is missing. -/
def row_stress_with (w : Weights) (dn sn rn hn cn : Option ℚ)
    (vanish_anchor : Bool) : Option ℚ :=
  match dn, sn, rn, hn, cn with
  | some d, some s, some r, some h, some c =>
    some (w.delay * d + w.speed * s + w.rain * r + w.heat * h + w.cold * c
          + w.vanish * (if vanish_anchor then 1 else 0))
  | _, _, _, _, _ => none

/-- The column `row_stress` as computed by `main` of add_stress_score.py:
the weighted sum under the configured `W`. -/
def row_stress (dn sn rn hn cn : Option ℚ) (vanish_anchor : Bool) : Option ℚ :=
  row_stress_with W dn sn rn hn cn vanish_anchor

/-! ## Helper lemmas about clip01 and the raw delay curve -/

lemma clip01_nonneg (x : ℚ) : 0 ≤ clip01 x :=
  le_min (le_max_right x 0) zero_le_one

lemma clip01_le_one (x : ℚ) : clip01 x ≤ 1 := min_le_right _ _

lemma clip01_mono {x y : ℚ} (h : x ≤ y) : clip01 x ≤ clip01 y :=
  min_le_min (max_le_max h le_rfl) le_rfl

lemma clip01_of_bounds {x : ℚ} (h0 : 0 ≤ x) (h1 : x ≤ 1) : clip01 x = x := by
  unfold clip01
  rw [max_eq_left h0, min_eq_left h1]

/-- The raw (pre-clip) delay curve in minutes, as written in
`delay_norm_vec`. -/
def delay_raw (d : ℚ) : ℚ :=
  if d ≤ 5 then 3/10 * (d / 5)
  else if d ≤ 15 then 3/10 + 4/10 * ((d - 5) / 10)
  else 7/10 + 3/10 * (min (d - 15) 45 / 45)

lemma delay_norm_vec_eq_clip_raw (q : ℚ) :
    delay_norm_vec (some q) = clip01 (delay_raw (q / 60)) := rfl

lemma delay_raw_mono {s t : ℚ} (h : s ≤ t) : delay_raw s ≤ delay_raw t := by
  unfold delay_raw
  rcases le_or_lt s 5 with hs1 | hs1
  · rw [if_pos hs1]
    rcases le_or_lt t 5 with ht1 | ht1
    · rw [if_pos ht1]; linarith
    · rw [if_neg (not_le.2 ht1)]
      rcases le_or_lt t 15 with ht2 | ht2
      · rw [if_pos ht2]; linarith
      · rw [if_neg (not_le.2 ht2)]
        have hm : (0:ℚ) ≤ min (t - 15) 45 := le_min (by linarith) (by norm_num)
        linarith
  · rw [if_neg (not_le.2 hs1)]
    rcases le_or_lt s 15 with hs2 | hs2
    · rw [if_pos hs2]
      have ht1 : ¬ t ≤ 5 := not_le.2 (lt_of_lt_of_le hs1 h)
      rw [if_neg ht1]
      rcases le_or_lt t 15 with ht2 | ht2
      · rw [if_pos ht2]; linarith
      · rw [if_neg (not_le.2 ht2)]
        have hm : (0:ℚ) ≤ min (t - 15) 45 := le_min (by linarith) (by norm_num)
        linarith
    · have ht1 : ¬ t ≤ 5 := not_le.2 (by linarith)
      have ht2 : ¬ t ≤ 15 := not_le.2 (by linarith)
      rw [if_neg (not_le.2 hs2), if_neg ht1, if_neg ht2]
      have hm : min (s - 15) 45 ≤ min (t - 15) 45 :=
        min_le_min (by linarith) le_rfl
      linarith

/-! ## Theorems for C1 and C4 -/

/-- C1: the end-to-end scenario.  A vehicle-minute with delay_sec=900,
speed_kph=20, free_kph=40, rain_mm=0, temp_c=18 gets delay_norm=0.70,
speed_norm=0.50, heat_norm=0, cold_norm=0, and the configured composite
scorer yields row_stress=0.36 with vanish_anchor=false and
row_stress=0.61 with vanish_anchor=true. -/
theorem C1_end_to_end :
    delay_norm_vec (some 900) = 70/100 ∧
    speed_norm (some 20) (some 40) = some (50/100) ∧
    heat_norm (some 18) = 0 ∧
    cold_norm (some 18) = 0 ∧
    row_stress (some (delay_norm_vec (some 900)))
      (speed_norm (some 20) (some 40))
      (some (rain_norm (some 0))) (some (heat_norm (some 18)))
      (some (cold_norm (some 18))) false = some (36/100) ∧
    row_stress (some (delay_norm_vec (some 900)))
      (speed_norm (some 20) (some 40))
      (some (rain_norm (some 0))) (some (heat_norm (some 18)))
      (some (cold_norm (some 18))) true = some (61/100) := by
  refine ⟨?_, ?_, ?_, ?_, ?_, ?_⟩ <;>
    norm_num [delay_norm_vec, speed_norm, heat_norm, cold_norm, rain_norm,
      row_stress, row_stress_with, W, clip01]

/-- C4: boundary values of the weather normalizers: heat_norm takes the
values 0, 0.30, 0.70, 1.00, 1.00 at 18, 21, 24, 27, 40 °C and cold_norm
takes 0, 0.30, 0.70, 1.00, 1.00 at 10, 5, 0, −5, −20 °C. -/
theorem C4_weather_boundaries :
    heat_norm (some 18) = 0 ∧ heat_norm (some 21) = 30/100 ∧
    heat_norm (some 24) = 70/100 ∧ heat_norm (some 27) = 1 ∧
    heat_norm (some 40) = 1 ∧
    cold_norm (some 10) = 0 ∧ cold_norm (some 5) = 30/100 ∧
    cold_norm (some 0) = 70/100 ∧ cold_norm (some (-5)) = 1 ∧
    cold_norm (some (-20)) = 1 := by
  refine ⟨?_, ?_, ?_, ?_, ?_, ?_, ?_, ?_, ?_, ?_⟩ <;>
    norm_num [heat_norm, cold_norm]

/-- C2: delay_norm equals the piecewise curve on minutes d (null treated
as 0 delay), is non-decreasing, takes the boundary values 0.30 at 5 min,
0.70 at 15 min, 1.00 at 60 min, and always lies in [0,1]. -/
theorem C2_delay_norm_curve :
    delay_norm_vec none = delay_norm_vec (some 0) ∧
    (∀ q : ℚ, 0 ≤ q / 60 → q / 60 ≤ 5 →
      delay_norm_vec (some q) = 3/10 * (q / 60 / 5)) ∧
    (∀ q : ℚ, 5 < q / 60 → q / 60 ≤ 15 →
      delay_norm_vec (some q) = 3/10 + 4/10 * ((q / 60 - 5) / 10)) ∧
    (∀ q : ℚ, 15 < q / 60 →
      delay_norm_vec (some q) = 7/10 + 3/10 * (min (q / 60 - 15) 45 / 45)) ∧
    (∀ q r : ℚ, q ≤ r → delay_norm_vec (some q) ≤ delay_norm_vec (some r)) ∧
    delay_norm_vec (some 300) = 30/100 ∧
    delay_norm_vec (some 900) = 70/100 ∧
    delay_norm_vec (some 3600) = 1 ∧
    (∀ o : Option ℚ, 0 ≤ delay_norm_vec o ∧ delay_norm_vec o ≤ 1) := by
  refine ⟨rfl, ?_, ?_, ?_, ?_, ?_, ?_, ?_, ?_⟩
  · intro q h0 h5
    rw [delay_norm_vec_eq_clip_raw, delay_raw, if_pos h5]
    exact clip01_of_bounds (by positivity) (by linarith)
  · intro q h5 h15
    rw [delay_norm_vec_eq_clip_raw, delay_raw, if_neg (not_le.2 h5),
      if_pos h15]
    exact clip01_of_bounds (by linarith) (by linarith)
  · intro q h15
    rw [delay_norm_vec_eq_clip_raw, delay_raw, if_neg (not_le.2 (by linarith)),
      if_neg (not_le.2 h15)]
    have hlo : (0:ℚ) ≤ min (q / 60 - 15) 45 := le_min (by linarith) (by norm_num)
    have hhi : min (q / 60 - 15) 45 ≤ 45 := min_le_right _ _
    exact clip01_of_bounds (by linarith) (by linarith)
  · intro q r h
    rw [delay_norm_vec_eq_clip_raw, delay_norm_vec_eq_clip_raw]
    exact clip01_mono (delay_raw_mono (by linarith))
  · norm_num [delay_norm_vec, clip01]
  · norm_num [delay_norm_vec, clip01]
  · norm_num [delay_norm_vec, clip01]
  · intro o
    cases o with
    | none => exact ⟨clip01_nonneg _, clip01_le_one _⟩
    | some q => exact ⟨clip01_nonneg _, clip01_le_one _⟩

/-- Witness for C2 at concrete inputs: the first-bucket formula at 60 s
and monotonicity between 120 s and 600 s. -/
theorem C2_delay_norm_curve_witness :
    delay_norm_vec (some 60) = 3/10 * ((60:ℚ) / 60 / 5) ∧
    delay_norm_vec (some 120) ≤ delay_norm_vec (some 600) :=
  ⟨C2_delay_norm_curve.2.1 60 (by norm_num) (by norm_num),
   C2_delay_norm_curve.2.2.2.2.1 120 600 (by norm_num)⟩

/-- C3: speed_norm is 0 for dwelling rows (speed < 5) regardless of the
free-flow reference; for moving rows with a free-flow entry it is
1 − speed/max(free, 1e-3) clipped to [0,1]; for moving rows without a
free-flow entry it is null. -/
theorem C3_speed_norm_cases :
    (∀ s : ℚ, ∀ f : Option ℚ, s < 5 → speed_norm (some s) f = some 0) ∧
    (∀ s f : ℚ, 5 ≤ s →
      speed_norm (some s) (some f) = some (clip01 (1 - s / max f (1/1000)))) ∧
    (∀ s : ℚ, 5 ≤ s → speed_norm (some s) none = none) := by
  refine ⟨?_, ?_, ?_⟩
  · intro s f h
    simp only [speed_norm, if_pos h]
  · intro s f h
    simp only [speed_norm, if_neg (not_lt.2 h)]
  · intro s h
    simp only [speed_norm, if_neg (not_lt.2 h)]

/-- Witness for C3 at concrete inputs: a dwelling row at 3 km/h, a
moving row at 20 km/h with free-flow 40 km/h, and a moving row at
20 km/h with no free-flow entry. -/
theorem C3_speed_norm_cases_witness :
    speed_norm (some 3) (some 40) = some 0 ∧
    speed_norm (some 20) (some 40) = some (clip01 (1 - 20 / max 40 (1/1000))) ∧
    speed_norm (some 20) none = none :=
  ⟨C3_speed_norm_cases.1 3 (some 40) (by norm_num),
   C3_speed_norm_cases.2.1 20 40 (by norm_num),
   C3_speed_norm_cases.2.2 20 (by norm_num)⟩

/-- One input row of add_stress_score.py: the five norm columns and the
vanish_anchor flag. -/
structure NormRow where
  dn : Option ℚ
  sn : Option ℚ
  rn : Option ℚ
  hn : Option ℚ
  cn : Option ℚ
  vanish_anchor : Bool

/-- The scoring pass of `main` in add_stress_score.py over a table: it
assigns each row its `row_stress` column, dropping no row. -/
def score_table (rows : List NormRow) : List (NormRow × Option ℚ) :=
  rows.map (fun r => (r, row_stress r.dn r.sn r.rn r.hn r.cn r.vanish_anchor))

/-- C10: a moving row with no free-flow entry has null speed_norm, and
that null propagates unguarded through the composite weighted sum:
row_stress is null for such a row, and the scorer drops no rows. -/
theorem C10_null_speed_norm_propagates :
    (∀ rows : List NormRow, (score_table rows).length = rows.length) ∧
    (∀ s : ℚ, 5 ≤ s → ∀ dn rn hn cn : ℚ, ∀ v : Bool,
      row_stress (some dn) (speed_norm (some s) none) (some rn) (some hn)
        (some cn) v = none) := by
  refine ⟨?_, ?_⟩
  · intro rows
    simp [score_table]
  · intro s hs dn rn hn cn v
    simp only [speed_norm, if_neg (not_lt.2 hs)]
    rfl

/-- Witness for C10: a row moving at 20 km/h with no free-flow entry and
all other norms present is scored null. -/
theorem C10_null_speed_norm_propagates_witness :
    row_stress (some (7/10)) (speed_norm (some 20) none) (some 0) (some 0)
      (some 0) false = none :=
  C10_null_speed_norm_propagates.2 20 (by norm_num) (7/10) 0 0 0 false

/-- C7 counterexample: the composite scorer contains no weight
validation — `row_stress_with` scores every configuration, including one
whose weights sum to 3 (≠ 1), producing the out-of-bound score 3 instead
of rejecting the configuration. -/
theorem C7_counterexample_no_rejection :
    ((1:ℚ)/2 + 1/2 + 1/2 + 1/2 + 1/2 + 1/2 ≠ 1) ∧
    row_stress_with ⟨1/2, 1/2, 1/2, 1/2, 1/2, 1/2⟩
      (some 1) (some 1) (some 1) (some 1) (some 1) true = some 3 := by
  refine ⟨by norm_num, ?_⟩
  norm_num [row_stress_with]

/-- C7 amended: the scorer performs no rejection, but its single
hard-coded configuration `W` sums to exactly 1.00, and under `W` every
row whose norms are all present and in [0,1] receives a score in
[0,1]. -/
theorem C7_amended_weights_sum_one :
    (W.delay + W.speed + W.rain + W.heat + W.cold + W.vanish = 1) ∧
    (∀ dn sn rn hn cn : ℚ, ∀ v : Bool,
      0 ≤ dn → dn ≤ 1 → 0 ≤ sn → sn ≤ 1 → 0 ≤ rn → rn ≤ 1 →
      0 ≤ hn → hn ≤ 1 → 0 ≤ cn → cn ≤ 1 →
      ∃ r, row_stress (some dn) (some sn) (some rn) (some hn) (some cn) v
          = some r ∧ 0 ≤ r ∧ r ≤ 1) := by
  refine ⟨by norm_num [W], ?_⟩
  intro dn sn rn hn cn v h1 h2 h3 h4 h5 h6 h7 h8 h9 h10
  refine ⟨_, rfl, ?_, ?_⟩ <;>
    · simp only [row_stress, row_stress_with, W]
      cases v <;> simp <;> nlinarith

/-- Witness for C7's amended claim: a concrete in-bound row is scored in
[0,1]. -/
theorem C7_amended_weights_sum_one_witness :
    ∃ r, row_stress (some (1/2)) (some (1/2)) (some 0) (some 0) (some 0) false
        = some r ∧ 0 ≤ r ∧ r ≤ 1 :=
  C7_amended_weights_sum_one.2 (1/2) (1/2) 0 0 0 false
    (by norm_num) (by norm_num) (by norm_num) (by norm_num) (by norm_num)
    (by norm_num) (by norm_num) (by norm_num) (by norm_num) (by norm_num)

/-! ## join_minute_with_weather.py -/

/-- One weather record: zone, minute-floored epoch timestamp (seconds),
rain and temperature. -/
structure WeatherRec where
  zone : ℕ
  minute : ℤ
  rain_mm : ℚ
  temp_c : ℚ

/-- One zone-tagged vehicle-minute (only the join keys matter here). -/
structure VehMin where
  zone : ℕ
  minute : ℤ

/-- The `pd.Timedelta` tolerance of the merge in
join_minute_with_weather.py: 7 min 30 s = 450 s. -/
def tolerance : ℤ := 450

/-- Nearest-by-time selection among a candidate list, keeping the
earlier list element on distance ties (the left-to-right preference of
the asof merge). -/
def nearest_in (t : ℤ) : List WeatherRec → Option WeatherRec
  | [] => none
  | w :: ws =>
    match nearest_in t ws with
    | none => some w
    | some b => if |b.minute - t| < |w.minute - t| then some b else some w

/-- Embeds the per-zone `pd.merge_asof(..., direction=nearest,
tolerance=7min30s)` lookup of join_minute_with_weather.py for one
vehicle row: restrict to weather records of the same zone within
tolerance (the zone partition of the `for z, grp in v.groupby` loop plus
the merge tolerance) and take the closest by time. -/
def nearest_weather (z : ℕ) (t : ℤ) (ws : List WeatherRec) : Option WeatherRec :=
  nearest_in t (ws.filter (fun w => decide (w.zone = z ∧ |w.minute - t| ≤ tolerance)))

/-- The whole join of `main` in join_minute_with_weather.py: every
vehicle row is kept once (left-preserving merge_asof, re-concatenated
over the zone groups) and paired with its matched weather record, if
any. -/
def join_weather (vs : List VehMin) (ws : List WeatherRec) :
    List (VehMin × Option WeatherRec) :=
  vs.map (fun v => (v, nearest_weather v.zone v.minute ws))

lemma nearest_in_eq_none_iff (t : ℤ) (l : List WeatherRec) :
    nearest_in t l = none ↔ l = [] := by
  induction l with
  | nil => simp [nearest_in]
  | cons w ws ih =>
    simp only [nearest_in]
    cases h : nearest_in t ws with
    | none => simp
    | some b =>
      constructor
      · intro hc
        by_cases hlt : |b.minute - t| < |w.minute - t| <;> simp [hlt] at hc
      · intro hc
        exact absurd hc (List.cons_ne_nil w ws)

lemma nearest_in_mem {t : ℤ} {l : List WeatherRec} {b : WeatherRec}
    (h : nearest_in t l = some b) : b ∈ l := by
  induction l with
  | nil => simp [nearest_in] at h
  | cons w ws ih =>
    simp only [nearest_in] at h
    cases hw : nearest_in t ws with
    | none =>
      rw [hw] at h
      simp at h
      simp [h]
    | some c =>
      rw [hw] at h
      dsimp only at h
      by_cases hlt : |c.minute - t| < |w.minute - t|
      · rw [if_pos hlt] at h
        simp at h
        subst h
        exact List.mem_cons_of_mem w (ih hw)
      · rw [if_neg hlt] at h
        simp at h
        simp [h]

lemma nearest_in_min {t : ℤ} {l : List WeatherRec} {b : WeatherRec}
    (h : nearest_in t l = some b) :
    ∀ w ∈ l, |b.minute - t| ≤ |w.minute - t| := by
  induction l generalizing b with
  | nil => simp [nearest_in] at h
  | cons w ws ih =>
    simp only [nearest_in] at h
    intro x hx
    cases hw : nearest_in t ws with
    | none =>
      rw [hw] at h
      simp at h
      subst h
      rcases List.mem_cons.1 hx with hx | hx
      · rw [hx]
      · exact absurd ((nearest_in_eq_none_iff t ws).1 hw ▸ hx) (List.not_mem_nil x)
    | some c =>
      rw [hw] at h
      dsimp only at h
      rcases List.mem_cons.1 hx with hx | hx
      · subst hx
        by_cases hlt : |c.minute - t| < |x.minute - t|
        · rw [if_pos hlt] at h
          simp at h
          subst h
          exact le_of_lt hlt
        · rw [if_neg hlt] at h
          simp at h
          subst h
          exact le_rfl
      · by_cases hlt : |c.minute - t| < |w.minute - t|
        · rw [if_pos hlt] at h
          simp at h
          subst h
          exact ih hw x hx
        · rw [if_neg hlt] at h
          simp at h
          subst h
          exact le_trans (not_lt.1 hlt) (ih hw x hx)

lemma nearest_weather_none_iff (z : ℕ) (t : ℤ) (ws : List WeatherRec) :
    nearest_weather z t ws = none ↔
      ∀ w ∈ ws, ¬(w.zone = z ∧ |w.minute - t| ≤ tolerance) := by
  rw [nearest_weather, nearest_in_eq_none_iff, List.filter_eq_nil_iff]
  constructor
  · intro h w hw hc
    exact absurd (decide_eq_true hc) (h w hw)
  · intro h w hw hc
    exact h w hw (of_decide_eq_true hc)

lemma nearest_weather_some {z : ℕ} {t : ℤ} {ws : List WeatherRec}
    {b : WeatherRec} (h : nearest_weather z t ws = some b) :
    b ∈ ws ∧ b.zone = z ∧ |b.minute - t| ≤ tolerance ∧
      ∀ w ∈ ws, w.zone = z → |b.minute - t| ≤ |w.minute - t| := by
  rw [nearest_weather] at h
  have hmem := nearest_in_mem h
  have hb := List.mem_filter.1 hmem
  have hbp := of_decide_eq_true hb.2
  refine ⟨hb.1, hbp.1, hbp.2, ?_⟩
  intro w hw hz
  by_cases htol : |w.minute - t| ≤ tolerance
  · exact nearest_in_min h w (List.mem_filter.2 ⟨hw, decide_eq_true ⟨hz, htol⟩⟩)
  · exact le_trans hbp.2 (le_of_lt (not_le.1 htol))

/-- C5: the temporal join is left-preserving (one output row per input
vehicle-minute, in order), its weather fields are null exactly when no
same-zone weather record lies within 450 s of the vehicle minute, and a
non-null match is a same-zone record within tolerance whose timestamp
distance is minimal among all same-zone records. -/
theorem C5_temporal_join (vs : List VehMin) (ws : List WeatherRec) :
    (join_weather vs ws).map Prod.fst = vs ∧
    (join_weather vs ws).length = vs.length ∧
    ∀ p ∈ join_weather vs ws,
      (p.2 = none ↔
        ∀ w ∈ ws, ¬(w.zone = p.1.zone ∧ |w.minute - p.1.minute| ≤ 450)) ∧
      ∀ b, p.2 = some b →
        b ∈ ws ∧ b.zone = p.1.zone ∧ |b.minute - p.1.minute| ≤ 450 ∧
        ∀ w ∈ ws, w.zone = p.1.zone →
          |b.minute - p.1.minute| ≤ |w.minute - p.1.minute| := by
  refine ⟨?_, ?_, ?_⟩
  · rw [join_weather, List.map_map]
    exact List.map_id vs
  · simp [join_weather]
  · intro p hp
    rcases List.mem_map.1 hp with ⟨v, hv, hpv⟩
    subst hpv
    constructor
    · exact nearest_weather_none_iff v.zone v.minute ws
    · intro b hb
      exact nearest_weather_some hb

/-- Witness for C5 at a concrete input: one vehicle-minute in zone 0 at
t = 0 s matched against one zone-0 weather record at t = 60 s. -/
theorem C5_temporal_join_witness :
    (join_weather [⟨0, 0⟩] [⟨0, 60, 0, 10⟩]).length = 1 ∧
    ((⟨0, 60, 0, 10⟩ : WeatherRec) ∈ [(⟨0, 60, 0, 10⟩ : WeatherRec)] ∧
      (⟨0, 60, 0, 10⟩ : WeatherRec).zone = (⟨0, 0⟩ : VehMin).zone ∧
      |(⟨0, 60, 0, 10⟩ : WeatherRec).minute - (⟨0, 0⟩ : VehMin).minute| ≤ 450 ∧
      ∀ w ∈ [(⟨0, 60, 0, 10⟩ : WeatherRec)], w.zone = (⟨0, 0⟩ : VehMin).zone →
        |(⟨0, 60, 0, 10⟩ : WeatherRec).minute - (⟨0, 0⟩ : VehMin).minute| ≤
          |w.minute - (⟨0, 0⟩ : VehMin).minute|) := by
  have h := C5_temporal_join [⟨0, 0⟩] [⟨0, 60, 0, 10⟩]
  have hp : ((⟨0, 0⟩ : VehMin),
      nearest_weather (0 : ℕ) (0 : ℤ) [⟨0, 60, 0, 10⟩]) ∈
      join_weather [⟨0, 0⟩] [⟨0, 60, 0, 10⟩] := by
    simp [join_weather]
  have hsome : nearest_weather (0 : ℕ) (0 : ℤ) [⟨0, 60, 0, 10⟩]
      = some ⟨0, 60, 0, 10⟩ := by
    simp [nearest_weather, nearest_in, tolerance]
  exact ⟨h.2.1, (h.2.2 _ hp).2 _ hsome⟩

/-! ## build_freeflow.py -/

/-- Linear-interpolation quantile of an already sorted list, as pandas
`Series.quantile` computes it: position `q·(n−1)`, value
`s[i] + frac·(s[i+1] − s[i])` with `i = ⌊position⌋` (the upper index is
clamped to `n−1`; when `frac = 0` the second term vanishes). -/
def quantile_sorted (q : ℚ) (s : List ℚ) : ℚ :=
  if s.length = 0 then 0
  else
    s.getD (⌊q * ((s.length : ℚ) - 1)⌋.toNat) 0 +
      (q * ((s.length : ℚ) - 1) - ⌊q * ((s.length : ℚ) - 1)⌋) *
      (s.getD (min (⌊q * ((s.length : ℚ) - 1)⌋.toNat + 1) (s.length - 1)) 0 -
       s.getD (⌊q * ((s.length : ℚ) - 1)⌋.toNat) 0)

/-- The pandas `quantile(q)` call of build_freeflow.py: sort the group
values, then interpolate linearly. -/
def quantile (q : ℚ) (xs : List ℚ) : ℚ :=
  quantile_sorted q (List.insertionSort (fun a b => a ≤ b) xs)

/-- Embeds build_freeflow.py: rows are (route_id, direction_id, speed)
triples; `df = df[df.speed_kph >= 10]` is the filter, and the
`groupby([route_id, direction_id]).quantile(0.95)` takes, for each key
appearing in the filtered table, the 95th percentile of that key's
speeds.  (pandas emits the groups sorted by key; the key order of the
output table is irrelevant to the properties proved here.) -/
def freeflow (rows : List ((ℕ × ℕ) × ℚ)) : List ((ℕ × ℕ) × ℚ) :=
  (((rows.filter (fun r => decide (10 ≤ r.2))).map Prod.fst).dedup).map
    (fun k => (k, quantile (95/100)
      (((rows.filter (fun r => decide (10 ≤ r.2))).filter
        (fun r => decide (r.1 = k))).map Prod.snd)))

lemma quantile_sorted_ge {c q : ℚ} {s : List ℚ} (hne : s ≠ [])
    (hall : ∀ x ∈ s, c ≤ x) (hq0 : 0 ≤ q) (hq1 : q ≤ 1) :
    c ≤ quantile_sorted q s := by
  have hlen : s.length ≠ 0 := fun h => hne (List.length_eq_zero.1 h)
  have hlen1 : (1:ℚ) ≤ (s.length : ℚ) := by
    exact_mod_cast Nat.one_le_iff_ne_zero.2 hlen
  rw [quantile_sorted, if_neg hlen]
  have hpos0 : 0 ≤ q * ((s.length : ℚ) - 1) :=
    mul_nonneg hq0 (by linarith)
  have hposle : q * ((s.length : ℚ) - 1) ≤ (s.length : ℚ) - 1 := by
    calc q * ((s.length : ℚ) - 1) ≤ 1 * ((s.length : ℚ) - 1) :=
          mul_le_mul_of_nonneg_right hq1 (by linarith)
    _ = (s.length : ℚ) - 1 := one_mul _
  have hfl0 : 0 ≤ ⌊q * ((s.length : ℚ) - 1)⌋ := Int.floor_nonneg.2 hpos0
  have hcast : ((⌊q * ((s.length : ℚ) - 1)⌋.toNat : ℚ))
      = ((⌊q * ((s.length : ℚ) - 1)⌋ : ℤ) : ℚ) := by
    exact_mod_cast congrArg (fun z => ((z : ℤ) : ℚ)) (Int.toNat_of_nonneg hfl0)
  have hfl_le : ((⌊q * ((s.length : ℚ) - 1)⌋ : ℤ) : ℚ) ≤ q * ((s.length : ℚ) - 1) :=
    Int.floor_le _
  have hlt1 : q * ((s.length : ℚ) - 1) < ((⌊q * ((s.length : ℚ) - 1)⌋ : ℤ) : ℚ) + 1 :=
    Int.lt_floor_add_one _
  have hi_lt : ⌊q * ((s.length : ℚ) - 1)⌋.toNat < s.length := by
    by_contra hc
    push_neg at hc
    have hc2 : (s.length : ℚ) ≤ (⌊q * ((s.length : ℚ) - 1)⌋.toNat : ℚ) := by
      exact_mod_cast hc
    rw [hcast] at hc2
    linarith
  have hj_lt : min (⌊q * ((s.length : ℚ) - 1)⌋.toNat + 1) (s.length - 1) < s.length :=
    lt_of_le_of_lt (min_le_right _ _) (Nat.sub_lt (Nat.pos_of_ne_zero hlen) one_pos)
  have hlo : c ≤ s.getD (⌊q * ((s.length : ℚ) - 1)⌋.toNat) 0 := by
    rw [List.getD_eq_getElem _ _ hi_lt]
    exact hall _ (List.getElem_mem hi_lt)
  have hhi : c ≤ s.getD (min (⌊q * ((s.length : ℚ) - 1)⌋.toNat + 1) (s.length - 1)) 0 := by
    rw [List.getD_eq_getElem _ _ hj_lt]
    exact hall _ (List.getElem_mem hj_lt)
  have hfr0 : 0 ≤ q * ((s.length : ℚ) - 1) - ((⌊q * ((s.length : ℚ) - 1)⌋ : ℤ) : ℚ) := by
    linarith
  have hfr1 : q * ((s.length : ℚ) - 1) - ((⌊q * ((s.length : ℚ) - 1)⌋ : ℤ) : ℚ) ≤ 1 := by
    linarith
  nlinarith [mul_nonneg hfr0 (by linarith :
      (0:ℚ) ≤ s.getD (min (⌊q * ((s.length : ℚ) - 1)⌋.toNat + 1) (s.length - 1)) 0 - c),
    mul_nonneg (by linarith : (0:ℚ) ≤ 1 -
        (q * ((s.length : ℚ) - 1) - ((⌊q * ((s.length : ℚ) - 1)⌋ : ℤ) : ℚ)))
      (by linarith : (0:ℚ) ≤ s.getD (⌊q * ((s.length : ℚ) - 1)⌋.toNat) 0 - c)]

lemma quantile_ge {c q : ℚ} {xs : List ℚ} (hne : xs ≠ [])
    (hall : ∀ x ∈ xs, c ≤ x) (hq0 : 0 ≤ q) (hq1 : q ≤ 1) :
    c ≤ quantile q xs := by
  apply quantile_sorted_ge _ _ hq0 hq1
  · intro h
    have hperm := List.perm_insertionSort (fun a b : ℚ => a ≤ b) xs
    rw [h] at hperm
    exact hne (List.Perm.nil_eq hperm).symm
  · intro x hx
    exact hall x ((List.perm_insertionSort (fun a b : ℚ => a ≤ b) xs).subset hx)

/-- C8: every entry of the free-flow table is the 95th percentile of its
(route, direction) group's speeds after excluding samples below 10 km/h,
and is therefore at least 10 — in particular strictly positive. -/
theorem C8_freeflow_percentile (rows : List ((ℕ × ℕ) × ℚ)) :
    ∀ e ∈ freeflow rows,
      e.2 = quantile (95/100)
        (((rows.filter (fun r => decide (10 ≤ r.2))).filter
          (fun r => decide (r.1 = e.1))).map Prod.snd) ∧
      10 ≤ e.2 ∧ 0 < e.2 := by
  intro e he
  rcases List.mem_map.1 he with ⟨k, hk, hek⟩
  subst hek
  have hk2 := List.mem_dedup.1 hk
  rcases List.mem_map.1 hk2 with ⟨r, hr, hrk⟩
  have hrg : r ∈ (rows.filter (fun r => decide (10 ≤ r.2))).filter
      (fun s => decide (s.1 = k)) :=
    List.mem_filter.2 ⟨hr, decide_eq_true hrk⟩
  have hne : (((rows.filter (fun r => decide (10 ≤ r.2))).filter
      (fun s => decide (s.1 = k))).map Prod.snd) ≠ [] :=
    List.ne_nil_of_mem (List.mem_map_of_mem Prod.snd hrg)
  have hall : ∀ x ∈ ((rows.filter (fun r => decide (10 ≤ r.2))).filter
      (fun s => decide (s.1 = k))).map Prod.snd, (10:ℚ) ≤ x := by
    intro x hx
    rcases List.mem_map.1 hx with ⟨r', hr', hrx⟩
    have h1 := (List.mem_filter.1 hr').1
    have h2 := of_decide_eq_true (List.mem_filter.1 h1).2
    rw [← hrx]
    exact h2
  have h10 : (10:ℚ) ≤ quantile (95/100)
      (((rows.filter (fun r => decide (10 ≤ r.2))).filter
        (fun s => decide (s.1 = k))).map Prod.snd) :=
    quantile_ge hne hall (by norm_num) (by norm_num)
  exact ⟨rfl, h10, lt_of_lt_of_le (by norm_num) h10⟩

/-- Witness for C8: a table with one route at speeds 30 (moving) and 5
(excluded) yields a free-flow entry equal to the percentile of the
filtered group, at least 10 and positive. -/
theorem C8_freeflow_percentile_witness :
    (((1, 0), (30:ℚ)) : (ℕ × ℕ) × ℚ).2 = quantile (95/100)
      ((([((1, 0), (30:ℚ)), ((1, 0), 5)].filter
          (fun r => decide (10 ≤ r.2))).filter
        (fun r => decide (r.1 = (((1, 0), (30:ℚ)) : (ℕ × ℕ) × ℚ).1))).map
          Prod.snd) ∧
    (10:ℚ) ≤ (((1, 0), (30:ℚ)) : (ℕ × ℕ) × ℚ).2 ∧
    (0:ℚ) < (((1, 0), (30:ℚ)) : (ℕ × ℕ) × ℚ).2 := by
  have hmem : (((1, 0), (30:ℚ)) : (ℕ × ℕ) × ℚ)
      ∈ freeflow [((1, 0), (30:ℚ)), ((1, 0), 5)] := by
    have : freeflow [((1, 0), (30:ℚ)), ((1, 0), 5)] = [((1, 0), 30)] := by
      norm_num [freeflow, quantile, quantile_sorted, List.insertionSort,
        List.orderedInsert, List.dedup, List.filter]
    rw [this]
    exact List.mem_singleton.2 rfl
  exact C8_freeflow_percentile [((1, 0), (30:ℚ)), ((1, 0), 5)] _ hmem

/-! ## norm_codes/geo/segment_utils.py -/

/-- Squared euclidean distance between two coordinate pairs, in the
units of the layer's CRS.  Both layers in snap_minutes are built with
crs EPSG:4326, so the unit is the lon/lat degree. -/
def dist_sq (p a : ℚ × ℚ) : ℚ := (p.1 - a.1)^2 + (p.2 - a.2)^2

/-- Squared point-to-segment distance in CRS units: the planar distance
geopandas computes for `sjoin_nearest`'s `distance_col` on unprojected
EPSG:4326 layers (squared here to stay rational: for nonnegative
bounds, `d ≤ m ↔ d² ≤ m²`).  Degenerate zero-length segments fall back
to the point distance; otherwise the projection parameter is clamped to
the segment. -/
def seg_dist_sq (p : ℚ × ℚ) (s : (ℚ × ℚ) × (ℚ × ℚ)) : ℚ :=
  if dist_sq s.1 s.2 = 0 then dist_sq p s.1
  else
    dist_sq p
      (s.1.1 + clip01 (((p.1 - s.1.1) * (s.2.1 - s.1.1) +
          (p.2 - s.1.2) * (s.2.2 - s.1.2)) / dist_sq s.1 s.2) * (s.2.1 - s.1.1),
       s.1.2 + clip01 (((p.1 - s.1.1) * (s.2.1 - s.1.1) +
          (p.2 - s.1.2) * (s.2.2 - s.1.2)) / dist_sq s.1 s.2) * (s.2.2 - s.1.2))

/-- The nearest segment to a point together with its squared distance
(the `sjoin_nearest` lookup of snap_minutes). -/
def nearest_seg (p : ℚ × ℚ) :
    List ((ℚ × ℚ) × (ℚ × ℚ)) → Option (((ℚ × ℚ) × (ℚ × ℚ)) × ℚ)
  | [] => none
  | s :: ss =>
    match nearest_seg p ss with
    | none => some (s, seg_dist_sq p s)
    | some (b, d) =>
      if d < seg_dist_sq p s then some (b, d) else some (s, seg_dist_sq p s)

/-- Embeds `snap_minutes` of norm_codes/geo/segment_utils.py:
`sjoin_nearest(how=left, distance_col=dist_m)` attaches the nearest
segment and its distance in CRS units, and the final
`joined[joined.dist_m <= max_dist_m]` keeps a row iff that distance is
at most `max_dist` (compared squared here); a point with no segment at
all has NaN distance and is dropped by the comparison.  The default
`max_dist` is 50, which the comparison applies in CRS degrees, not
meters. -/
def snap_minutes (pts : List (ℚ × ℚ)) (segs : List ((ℚ × ℚ) × (ℚ × ℚ)))
    (max_dist : ℚ) : List ((ℚ × ℚ) × ((ℚ × ℚ) × (ℚ × ℚ)) × ℚ) :=
  pts.filterMap (fun p =>
    match nearest_seg p segs with
    | none => none
    | some (s, d2) => if d2 ≤ max_dist^2 then some (p, s, d2) else none)

/-- C6 evaluated at the failing input: a scored point at lon −6.25°,
lat 53.35° against a single north–south segment at lon −6.26° (Dublin
coordinates).  Its distance to the segment is 0.01 CRS degrees — about
663 meters on the ground, far beyond 50 m — yet `snap_minutes` with the
default bound 50 keeps it, because the comparison `dist_m <= 50` is
applied to degree-valued distances.  The spec's claim that points
farther than 50 meters from every segment are excluded therefore fails
on the code. -/
theorem C6_snap_minutes_unit_bug :
    snap_minutes [(-625/100, 5335/100)]
      [((-626/100, 53), (-626/100, 54))] 50
      = [((-625/100, 5335/100), ((-626/100, 53), (-626/100, 54)), 1/10000)] := by
  norm_num [snap_minutes, nearest_seg, seg_dist_sq, dist_sq, clip01,
    List.filterMap]

/-! ## app/app.py : ed_stress_agg -/

/-- The aggregation metric selected per query in `ed_stress_agg`. -/
inductive Metric where
  | avg : Metric
  | maxStress : Metric
  | pctThreshold : Metric

/-- One output row of `ed_stress_agg` for one polygon. -/
structure EdRow where
  value : ℚ
  n : ℕ
  count_hi : ℕ
  share_hi : ℚ

/-- The row_stress values of the scored points assigned to polygon `ed`
by the within-join (each point carries the polygon of the `sjoin`
how=left, or none when no polygon contains it). -/
def assigned_stresses (points : List (Option ℕ × ℚ)) (ed : ℕ) : List ℚ :=
  (points.filter (fun p => decide (p.1 = some ed))).map Prod.snd

/-- Embeds the per-polygon computation of `ed_stress_agg` in app/app.py:
for Avg the group mean with the left-merge `fillna` giving 0 on
polygons with no group; for Max the group max, same fillna; for
%>threshold the count and share above `thr` (default 0.50 when the
caller passes none), where `share_hi = (count_hi / n).fillna(0)` — the
0/0 NaN of an empty polygon becomes 0 — and `value = share_hi`. -/
def ed_agg_row (metric : Metric) (thr : Option ℚ)
    (points : List (Option ℕ × ℚ)) (ed : ℕ) : EdRow :=
  match metric with
  | .avg =>
    { value := if (assigned_stresses points ed).length = 0 then 0
        else (assigned_stresses points ed).sum / (assigned_stresses points ed).length
      n := (assigned_stresses points ed).length
      count_hi := 0, share_hi := 0 }
  | .maxStress =>
    { value := match assigned_stresses points ed with
        | [] => 0
        | x :: xs => xs.foldl max x
      n := (assigned_stresses points ed).length
      count_hi := 0, share_hi := 0 }
  | .pctThreshold =>
    { value := if (assigned_stresses points ed).length = 0 then 0
        else (((assigned_stresses points ed).filter
          (fun x => decide (thr.getD (1/2) < x))).length : ℚ)
            / (assigned_stresses points ed).length
      n := (assigned_stresses points ed).length
      count_hi := ((assigned_stresses points ed).filter
        (fun x => decide (thr.getD (1/2) < x))).length
      share_hi := if (assigned_stresses points ed).length = 0 then 0
        else (((assigned_stresses points ed).filter
          (fun x => decide (thr.getD (1/2) < x))).length : ℚ)
            / (assigned_stresses points ed).length }

/-- The full `ed_stress_agg` table: one output row per polygon of the
census layer (the merges are keyed on the polygon table, so every
polygon appears exactly once). -/
def ed_stress_agg (metric : Metric) (thr : Option ℚ)
    (points : List (Option ℕ × ℚ)) (eds : List ℕ) : List (ℕ × EdRow) :=
  eds.map (fun e => (e, ed_agg_row metric thr points e))

/-- C9: a polygon to which zero scored points are assigned gets
n = 0, count_hi = 0, share_hi = 0 and value = 0 under every metric and
every threshold, and the %>threshold metric with no supplied threshold
behaves exactly as with the default threshold 0.50. -/
theorem C9_empty_polygon (metric : Metric) (thr : Option ℚ)
    (points : List (Option ℕ × ℚ)) (eds : List ℕ) (ed : ℕ)
    (hmem : ed ∈ eds) (hempty : ∀ p ∈ points, p.1 ≠ some ed) :
    (ed, ({ value := 0, n := 0, count_hi := 0, share_hi := 0 } : EdRow))
      ∈ ed_stress_agg metric thr points eds ∧
    ed_stress_agg Metric.pctThreshold none points eds
      = ed_stress_agg Metric.pctThreshold (some (1/2)) points eds := by
  have hxs : assigned_stresses points ed = [] := by
    rw [assigned_stresses, List.filter_eq_nil_iff.2, List.map_nil]
    intro p hp
    simp only [decide_eq_true_eq]
    exact hempty p hp
  constructor
  · refine List.mem_map.2 ⟨ed, hmem, ?_⟩
    cases metric <;> simp [ed_agg_row, hxs]
  · rfl

/-- Witness for C9: one scored point assigned to polygon 1, queried over
a census layer containing only polygon 2 — polygon 2 is empty and gets
the all-zero row. -/
theorem C9_empty_polygon_witness :
    ((2 : ℕ), ({ value := 0, n := 0, count_hi := 0, share_hi := 0 } : EdRow))
      ∈ ed_stress_agg Metric.avg none [(some 1, 3/4)] [2] ∧
    ed_stress_agg Metric.pctThreshold none [(some 1, 3/4)] [2]
      = ed_stress_agg Metric.pctThreshold (some (1/2)) [(some 1, 3/4)] [2] := by
  refine C9_empty_polygon Metric.avg none [(some 1, 3/4)] [2] 2
    (List.mem_singleton.2 rfl) ?_
  intro p hp
  rw [List.mem_singleton] at hp
  subst hp
  simp

end TransitStress
